import Mathlib

/- Verification of the ETC CSV parsing and batch-processing core of
`etc_data_processor`.  The Go sources embedded here are
`pkg/parser` (file holding `ETCCSVParser`: `Parse`, `parseDate`,
`parseAmount`, `ValidateRecord`, `ConvertToSimpleRecord`,
`parseWithHeaders`, `getFieldByHeader`, `getFieldSafe`,
`ParseVehicleClass`, `ValidateRecordsAvailable`) and
`pkg/handler/service.go` (`ValidateCSVData`, `processRecords`).
CSV tokenization (encoding/csv) and `time.Date` are Go standard
library and stay outside the model: `Parse` is embedded from the
point where the token stream has been read into rows of cells, and a
parsed date is the (year, month, day) triple handed to `time.Date`. -/

namespace Etc

/-- decides whether `pat` occurs as a contiguous infix of `hay`;
embeds Go `strings.Contains`. -/
def hasInfix (pat : List Char) : List Char → Bool
  | [] => pat.isEmpty
  | c :: t => pat.isPrefixOf (c :: t) || hasInfix pat t

/-- substring test on strings, Go `strings.Contains(s, pat)`. -/
def strContains (s pat : String) : Bool :=
  hasInfix pat.toList s.toList

/-- value of a nonempty all-ASCII-digit character list, `none` otherwise. -/
def digitsVal : List Char → Option Nat
  | [] => none
  | cs =>
    if cs.all (fun c => c.isDigit) then
      some (cs.foldl (fun a c => a * 10 + (c.toNat - 48)) 0)
    else none

/-- embeds Go `strconv.Atoi`: optional single leading sign, then at least
one ASCII digit, result within the 64-bit signed range. -/
def atoi (cs : List Char) : Option Int :=
  let signed : Int × List Char :=
    match cs with
    | '-' :: t => (-1, t)
    | '+' :: t => (1, t)
    | t => (1, t)
  match digitsVal signed.2 with
  | none => none
  | some n =>
    let v : Int := signed.1 * n
    if -(2 ^ 63) ≤ v ∧ v < 2 ^ 63 then some v else none

/-- embeds Go `strings.Split(s, "/")` for the one-character separator:
the list of chunks of `cs` delimited by `'/'` (empty chunks kept). -/
def splitOnSlash : List Char → List (List Char)
  | [] => [[]]
  | c :: t =>
    let r := splitOnSlash t
    if c = '/' then [] :: r
    else
      match r with
      | h :: t2 => (c :: h) :: t2
      | [] => [[c]]

/-- record shape produced by the parser for one CSV row
(Go struct `ActualETCRecord`). -/
structure ActualETCRecord where
  EntryDate : String := ""
  EntryTime : String := ""
  ExitDate : String := ""
  ExitTime : String := ""
  EntryIC : String := ""
  ExitIC : String := ""
  RouteInfo : String := ""
  ETCAmount : Int := 0
  NormalAmount : Int := 0
  DiscountApplied : Int := 0
  Mileage : Int := 0
  VehicleClass : Int := 0
  VehicleNumber : String := ""
  CardNumber : String := ""
  Notes : String := ""
deriving DecidableEq, Repr

/-- simplified record handed to storage (Go struct `ETCRecord`); `Date`
is the (year, month, day) triple the Go code passes to `time.Date`. -/
structure ETCRecord where
  Date : Int × Int × Int
  EntryIC : String
  ExitIC : String
  Route : String
  VehicleType : String
  Amount : Int
  CardNumber : String
deriving DecidableEq, Repr

/-- embeds `getFieldSafe`: the cell at `index`, or `""` when the row is
too short. -/
def getFieldSafe (record : List String) (index : Nat) : String :=
  record.getD index ""

/-- embeds `parseAmount`: strip every comma, then `strconv.Atoi`
(both branches of the Go function perform the same `Atoi` call). -/
def parseAmount (s : String) : Option Int :=
  atoi (s.toList.filter (fun c => c ≠ ','))

/-- two-digit-year expansion inlined in Go `parseDate`: years below 100
map into 2000s (below 50) or 1900s (50–99); others pass through. -/
def expandYear (year : Int) : Int :=
  if year < 100 then
    if year < 50 then year + 2000 else year + 1900
  else year

/-- embeds `parseDate`: split on `/`, require exactly three components,
parse each with `Atoi`, expand the year; the result is the
(year, month, day) triple given to `time.Date` (no range checks). -/
def parseDate (dateStr : String) : Option (Int × Int × Int) :=
  let parts := splitOnSlash dateStr.toList
  if parts.length ≠ 3 then none
  else
    match atoi (parts.getD 0 []) with
    | none => none
    | some year =>
      match atoi (parts.getD 1 []) with
      | none => none
      | some month =>
        match atoi (parts.getD 2 []) with
        | none => none
        | some day => some (expandYear year, month, day)

/-- embeds `ValidateRecord`: nonempty card number; each nonempty date
text must parse. -/
def ValidateRecord (record : ActualETCRecord) : Except String Unit :=
  if record.CardNumber = "" then
    Except.error "card number cannot be empty"
  else if record.EntryDate ≠ "" ∧ (parseDate record.EntryDate).isNone then
    Except.error "invalid entry date"
  else if record.ExitDate ≠ "" ∧ (parseDate record.ExitDate).isNone then
    Except.error "invalid exit date"
  else Except.ok ()

/-- embeds `ParseVehicleClass`: `strconv.Atoi` of the cell, 0 when the
cell is absent, empty, or unparsable. -/
def ParseVehicleClass (record : List String) (fieldIndex : Nat) : Int :=
  let fieldValue := getFieldSafe record fieldIndex
  if fieldValue ≠ "" then
    match atoi fieldValue.toList with
    | some class0 => class0
    | none => 0
  else 0

/-- two's-complement wrap into the signed 64-bit range `[-2^63, 2^63)`;
Go `int` arithmetic reduces modulo `2^64` into this range, so the
negation `-amount` in `ConvertToSimpleRecord` wraps at `-2^63`. -/
def wrap64 (x : Int) : Int :=
  (x + 2 ^ 63) % 2 ^ 64 - 2 ^ 63

/-- embeds `ConvertToSimpleRecord`: exit date first, entry date as
fallback, `none` when both fail; fee amount with base-amount fallback
when zero, then sign-flipped when negative — with Go's 64-bit `int`
negation, which wraps at `-2^63`; vehicle label `Class %d`. -/
def ConvertToSimpleRecord (actual : ActualETCRecord) : Option ETCRecord :=
  let date? :=
    match parseDate actual.ExitDate with
    | some d => some d
    | none => parseDate actual.EntryDate
  match date? with
  | none => none
  | some date =>
    let amount := actual.ETCAmount
    let amount := if amount = 0 then actual.NormalAmount else amount
    let amount := if amount < 0 then wrap64 (-amount) else amount
    some
      { Date := date
        EntryIC := actual.EntryIC
        ExitIC := actual.ExitIC
        Route := actual.RouteInfo
        VehicleType := "Class " ++ toString actual.VehicleClass
        Amount := amount
        CardNumber := actual.CardNumber }

/-- embeds the header-detection loop of `Parse`: the first row is a
header iff some cell contains one of the five keyword substrings. -/
def isHeaderRow (firstRow : List String) : Bool :=
  firstRow.any (fun col =>
    strContains col "利用年月日" || strContains col "時刻" ||
    strContains col "利用IC" || strContains col "料金" ||
    strContains col "カード番号")

/-- embeds the Go map `headerMap[col] = idx` built over the first row:
looking a name up yields the index of its last occurrence. -/
def lookupHeader (firstRow : List String) (name : String) : Option Nat :=
  ((firstRow.enum.filter (fun p => p.2 = name)).getLast?).map (fun p => p.1)

/-- embeds `getFieldByHeader`: probe candidate header names in order;
the first that resolves to an in-range index yields its cell, else `""`. -/
def getFieldByHeader (record : List String) (firstRow : List String) :
    List String → String
  | [] => ""
  | headerName :: rest =>
    match lookupHeader firstRow headerName with
    | some idx =>
      if idx < record.length then record.getD idx ""
      else getFieldByHeader record firstRow rest
    | none => getFieldByHeader record firstRow rest

/-- amount-cell policy of `parseWithHeaders`: a nonempty cell that
parses sets the field, anything else leaves it at 0. -/
def headerAmount (s : String) : Int :=
  if s ≠ "" then
    match parseAmount s with
    | some amount => amount
    | none => 0
  else 0

/-- fee amount read from the toll-fee column probe
(`通行料金` / `ETC料金` / `料金`) in `parseWithHeaders`, before the
post-payment overwrite. -/
def tollFeeAmount (record firstRow : List String) : Int :=
  headerAmount (getFieldByHeader record firstRow ["通行料金", "ETC料金", "料金"])

/-- vehicle-class cell policy of `parseWithHeaders`: plain `Atoi`,
kept at 0 on empty or unparsable text. -/
def headerVehicleClass (s : String) : Int :=
  if s ≠ "" then
    match atoi s.toList with
    | some class0 => class0
    | none => 0
  else 0

/-- embeds `parseWithHeaders`: header-based field probes; the
post-payment column (`後納料金` / `後払料金`) overwrites `ETCAmount`
when nonempty, parsable and nonzero. -/
def parseWithHeaders (record firstRow : List String) : ActualETCRecord :=
  let gf := getFieldByHeader record firstRow
  let base : ActualETCRecord :=
    { EntryDate := gf ["利用年月日（入）", "利用年月日(入)", "利用年月日（自）", "入口日付"]
      EntryTime := gf ["時刻（入）", "時刻(入)", "時分（自）", "入口時刻"]
      ExitDate := gf ["利用年月日（出）", "利用年月日(出)", "利用年月日（至）", "出口日付"]
      ExitTime := gf ["時刻（出）", "時刻(出)", "時分（至）", "出口時刻"]
      EntryIC := gf ["利用IC（入）", "利用IC(入)", "利用ＩＣ（自）", "入口IC", "入口"]
      ExitIC := gf ["利用IC（出）", "利用IC(出)", "利用ＩＣ（至）", "出口IC", "出口"]
      RouteInfo := gf ["経路情報", "路線", "経路"]
      NormalAmount := headerAmount (gf ["割引前料金", "通行料金", "通常料金"])
      DiscountApplied := headerAmount (gf ["ＥＴＣ割引額", "ETC割引額", "割引額"])
      ETCAmount := tollFeeAmount record firstRow
      VehicleClass := headerVehicleClass (gf ["車種", "車両区分", "車種区分"])
      VehicleNumber := gf ["車両番号", "ナンバー", "車番"]
      CardNumber := gf ["ＥＴＣカード番号", "ETCカード番号", "カード番号", "カード"]
      Notes := gf ["備考", "メモ", "注記"] }
  let postPaymentStr := gf ["後納料金", "後払料金"]
  if postPaymentStr ≠ "" then
    match parseAmount postPaymentStr with
    | some amount =>
      if amount ≠ 0 then { base with ETCAmount := amount } else base
    | none => base
  else base

/-- embeds the positional branch of the `Parse` loop (rows already
known to have at least 13 cells; fields 0–5 are direct indexing in Go,
identical to the safe accessor under that guard). -/
def parsePositional (record : List String) : ActualETCRecord :=
  { EntryDate := record.getD 0 ""
    EntryTime := record.getD 1 ""
    ExitDate := record.getD 2 ""
    ExitTime := record.getD 3 ""
    EntryIC := record.getD 4 ""
    ExitIC := record.getD 5 ""
    RouteInfo := getFieldSafe record 6
    ETCAmount :=
      if getFieldSafe record 7 ≠ "" then
        match parseAmount (getFieldSafe record 7) with
        | some amount => amount
        | none => 0
      else 0
    NormalAmount :=
      if getFieldSafe record 8 ≠ "" then
        match parseAmount (getFieldSafe record 8) with
        | some amount => amount
        | none => 0
      else 0
    DiscountApplied :=
      if getFieldSafe record 9 ≠ "" then
        match parseAmount (getFieldSafe record 9) with
        | some amount => amount
        | none => 0
      else 0
    Mileage :=
      if getFieldSafe record 10 ≠ "" then
        match parseAmount (getFieldSafe record 10) with
        | some amount => amount
        | none => 0
      else 0
    VehicleClass := ParseVehicleClass record 11
    VehicleNumber := getFieldSafe record 12
    CardNumber := getFieldSafe record 13
    Notes := getFieldSafe record 14 }

/-- one iteration of the `Parse` loop: header mode always maps the row;
positional mode silently drops rows with fewer than 13 cells.
`ValidateRecord` is invoked on the mapped record in Go but its result
is discarded, so it has no effect on the output. -/
def rowToRecord (isHdr : Bool) (firstRow record : List String) :
    Option ActualETCRecord :=
  if isHdr then some (parseWithHeaders record firstRow)
  else if record.length < 13 then none
  else some (parsePositional record)

/-- embeds `ValidateRecordsAvailable`. -/
def ValidateRecordsAvailable (records : List (List String))
    (startIndex : Nat) : Except String Unit :=
  if records.length ≤ startIndex then Except.error "no data records found"
  else Except.ok ()

/-- embeds `Parse` from the point where `csv.ReadAll` has produced the
rows: empty-input check, header detection, data-row availability check,
then the row-mapping loop. -/
def Parse (rows : List (List String)) :
    Except String (List ActualETCRecord) :=
  match rows with
  | [] => Except.error "CSV file is empty"
  | firstRow :: _ =>
    let isHdr := isHeaderRow firstRow
    let startIndex := if isHdr then 1 else 0
    match ValidateRecordsAvailable rows startIndex with
    | Except.error e => Except.error e
    | Except.ok _ =>
      Except.ok ((rows.drop startIndex).filterMap (rowToRecord isHdr firstRow))

/-- duplicate key used by `ValidateCSVData`
(`"%s_%s_%s_%s_%d"` over entry/exit date and time and the fee amount). -/
def validateKey (r : ActualETCRecord) : String :=
  r.EntryDate ++ "_" ++ r.EntryTime ++ "_" ++ r.ExitDate ++ "_" ++
    r.ExitTime ++ "_" ++ toString r.ETCAmount

/-- duplicate key used by `processRecords`
(`"%s_%s_%s_%s_%d_%s"`: the validate key plus the card number). -/
def processKey (r : ActualETCRecord) : String :=
  validateKey r ++ "_" ++ r.CardNumber

/-- embeds `duplicateMap[key]++` on the association-list model of the
Go map: increment the binding of `key`. -/
def bumpKey : List (String × Nat) → String → List (String × Nat)
  | [], _ => []
  | (a, b) :: t, key => if a = key then (a, b + 1) :: t else (a, b) :: bumpKey t key

/-- embeds the duplicate-counting loop of `ValidateCSVData`: a record
whose key is already in the map increments the count. -/
def dupPass : List ActualETCRecord → List (String × Nat) → Nat → Nat
  | [], _, duplicateCount => duplicateCount
  | r :: rest, duplicateMap, duplicateCount =>
    let key := validateKey r
    match duplicateMap.lookup key with
    | some _ => dupPass rest (bumpKey duplicateMap key) (duplicateCount + 1)
    | none => dupPass rest ((key, 1) :: duplicateMap) duplicateCount

/-- response of the validate-only path (line numbers are `i + 2`). -/
structure ValidateResult where
  IsValid : Bool
  Errors : List (Nat × String)
  DuplicateCount : Nat
  TotalRecords : Nat
deriving DecidableEq, Repr

/-- embeds the post-parse body of `ValidateCSVData`: one linear pass
counting duplicates and collecting per-record validation errors. -/
def ValidateCSVData (records : List ActualETCRecord) : ValidateResult :=
  let validationErrors :=
    records.enum.filterMap (fun p =>
      match ValidateRecord p.2 with
      | Except.error e => some (p.1 + 2, e)
      | Except.ok _ => none)
  { IsValid := validationErrors.isEmpty
    Errors := validationErrors
    DuplicateCount := dupPass records [] 0
    TotalRecords := records.length }

/-- counters of `pb.ProcessingStats` as used by `processRecords`
(Go `int32`; the batch sizes involved never overflow). -/
structure ProcessingStats where
  TotalRecords : Int
  SavedRecords : Int
  SkippedRecords : Int
  ErrorRecords : Int
deriving DecidableEq, Repr

/-- state threaded through the `processRecords` loop: the stats and
diagnostics the Go function returns, the processed-key set, and the
trace of record indices at which conversion and storage were invoked
(the loop's two external effects). -/
structure ProcState where
  stats : ProcessingStats
  errors : List String
  processedKeys : List String
  convCalls : List Nat
  storeCalls : List Nat
deriving DecidableEq, Repr

/-- storage collaborator: Go `s.dbClient.SaveETCData`, modelled as a
function of the record index, the account id and the simplified
record; `none` models a nil `dbClient` (save step skipped). -/
def StoreFn : Type := Nat → String → ETCRecord → Except String Unit

/-- body of one non-cancelled `processRecords` iteration at index `i`:
duplicate skip, conversion, optional store, key marking and counter
updates, in the order of the Go loop. -/
def procStep (db : Option StoreFn) (accountID : String)
    (skipDuplicates : Bool) (i : Nat) (r : ActualETCRecord)
    (st : ProcState) : ProcState :=
  let key := processKey r
  if skipDuplicates && st.processedKeys.contains key then
    { st with stats := { st.stats with SkippedRecords := st.stats.SkippedRecords + 1 } }
  else
    let st1 := { st with convCalls := st.convCalls ++ [i] }
    match ConvertToSimpleRecord r with
    | none =>
      { st1 with
        errors := st1.errors ++ ["Record " ++ toString (i + 1) ++ ": conversion failed"]
        stats := { st1.stats with ErrorRecords := st1.stats.ErrorRecords + 1 } }
    | some simpleRecord =>
      match db with
      | none =>
        { st1 with
          processedKeys := key :: st1.processedKeys
          stats := { st1.stats with SavedRecords := st1.stats.SavedRecords + 1 } }
      | some save =>
        let st2 := { st1 with storeCalls := st1.storeCalls ++ [i] }
        match save i accountID simpleRecord with
        | Except.error e =>
          { st2 with
            errors := st2.errors ++
              ["Record " ++ toString (i + 1) ++ ": save failed: " ++ e]
            stats := { st2.stats with ErrorRecords := st2.stats.ErrorRecords + 1 } }
        | Except.ok _ =>
          { st2 with
            processedKeys := key :: st2.processedKeys
            stats := { st2.stats with SavedRecords := st2.stats.SavedRecords + 1 } }

/-- the `processRecords` loop: `cancelled i` is whether `ctx.Err()` is
non-nil when the iteration for index `i` starts; on cancellation the
loop appends one diagnostic, sets `ErrorRecords` to the remaining
count and breaks. -/
def procLoop (cancelled : Nat → Bool) (db : Option StoreFn)
    (accountID : String) (skipDuplicates : Bool) (total : Nat) :
    Nat → List ActualETCRecord → ProcState → ProcState
  | _, [], st => st
  | i, r :: rest, st =>
    if cancelled i then
      { st with
        errors := st.errors ++ ["Processing cancelled at record " ++ toString i]
        stats := { st.stats with ErrorRecords := (total : Int) - (i : Int) } }
    else
      procLoop cancelled db accountID skipDuplicates total (i + 1) rest
        (procStep db accountID skipDuplicates i r st)

/-- embeds `processRecords`: initial stats with `TotalRecords` set to
the input length, then the loop from index 0 with no processed keys. -/
def processRecords (cancelled : Nat → Bool)
    (records : List ActualETCRecord) (accountID : String)
    (skipDuplicates : Bool) (db : Option StoreFn) : ProcState :=
  procLoop cancelled db accountID skipDuplicates records.length 0 records
    { stats :=
        { TotalRecords := (records.length : Int)
          SavedRecords := 0
          SkippedRecords := 0
          ErrorRecords := 0 }
      errors := []
      processedKeys := []
      convCalls := []
      storeCalls := [] }

/-- C1: `parseDate` succeeds exactly when the input splits on `/` into
three components each accepted by `Atoi`; the parsed year expands by
the pivot-50 rule (2000s below 50, 1900s from 50 to 99, years of 100
and above unchanged) and the resulting date triple is
(expanded year, month, day) with no month or day range validation. -/
theorem parseDate_pivot_year_rule (s : String) :
    ((parseDate s).isSome ↔
      ∃ a b c, splitOnSlash s.toList = [a, b, c] ∧
        (atoi a).isSome ∧ (atoi b).isSome ∧ (atoi c).isSome) ∧
    (∀ a b c y m d, splitOnSlash s.toList = [a, b, c] →
      atoi a = some y → atoi b = some m → atoi c = some d →
      parseDate s = some (expandYear y, m, d)) ∧
    (∀ y : Int, (0 ≤ y → y < 50 → expandYear y = 2000 + y) ∧
      (50 ≤ y → y < 100 → expandYear y = 1900 + y) ∧
      (100 ≤ y → expandYear y = y)) := by
  refine ⟨?_, ?_, ?_⟩
  · unfold parseDate
    by_cases hl : (splitOnSlash s.toList).length = 3
    · obtain ⟨a, b, c, habc⟩ := List.length_eq_three.mp hl
      rw [habc]
      simp only [List.length_cons, List.length_nil, List.getD, List.get?]
      constructor
      · intro h
        refine ⟨a, b, c, rfl, ?_, ?_, ?_⟩ <;>
          cases ha : atoi a <;> cases hb : atoi b <;> cases hc : atoi c <;>
            simp_all
      · rintro ⟨x, y, z, hxyz, hx, hy, hz⟩
        obtain ⟨rfl, rfl, rfl⟩ : a = x ∧ b = y ∧ c = z := by
          simpa using hxyz
        cases ha : atoi a <;> cases hb : atoi b <;> cases hc : atoi c <;>
          simp_all
    · have habc : ∀ a b c, splitOnSlash s.toList ≠ [a, b, c] := by
        intro a b c h
        exact hl (by rw [h]; rfl)
      rw [if_pos hl]
      simp only [Option.isSome_none, Bool.false_eq_true, false_iff]
      rintro ⟨a, b, c, h, -⟩
      exact habc a b c h
  · intro a b c y m d habc ha hb hc
    unfold parseDate
    rw [habc]
    simp only [List.length_cons, List.length_nil, List.getD, List.get?]
    simp [ha, hb, hc]
  · intro y
    unfold expandYear
    refine ⟨?_, ?_, ?_⟩ <;> intros <;> split_ifs <;> omega

/-- C1 witness: the concrete date `25/09/01` parses to 2025-09-01. -/
theorem parseDate_pivot_year_rule_witness :
    parseDate "25/09/01" = some (expandYear 25, 9, 1) :=
  (parseDate_pivot_year_rule "25/09/01").2.1 ['2', '5'] ['0', '9'] ['0', '1']
    25 9 1 (by decide) (by decide) (by decide) (by decide)

/-- C3: `ConvertToSimpleRecord` tries the exit date first and falls
back to the entry date; it fails exactly when both date texts fail to
parse, and when only the exit date is unparsable the result carries
the parsed entry date. -/
theorem ConvertToSimpleRecord_date_fallback (a : ActualETCRecord) :
    (ConvertToSimpleRecord a = none ↔
      parseDate a.ExitDate = none ∧ parseDate a.EntryDate = none) ∧
    (∀ d, parseDate a.ExitDate = some d →
      ∃ r, ConvertToSimpleRecord a = some r ∧ r.Date = d) ∧
    (parseDate a.ExitDate = none →
      ∀ d, parseDate a.EntryDate = some d →
        ∃ r, ConvertToSimpleRecord a = some r ∧ r.Date = d) := by
  unfold ConvertToSimpleRecord
  cases hx : parseDate a.ExitDate <;> cases he : parseDate a.EntryDate <;> simp

/-- C3 witness: an unparsable exit date with a parsable entry date
converts, carrying the entry date. -/
theorem ConvertToSimpleRecord_date_fallback_witness :
    ∃ r, ConvertToSimpleRecord
        { EntryDate := "25/09/01", ExitDate := "bad", CardNumber := "c1" } =
        some r ∧ r.Date = (2025, 9, 1) :=
  (ConvertToSimpleRecord_date_fallback
      { EntryDate := "25/09/01", ExitDate := "bad", CardNumber := "c1" }).2.2
    (by decide) (2025, 9, 1) (by decide)

/-- helper: `wrap64` is the identity on the signed 64-bit range. -/
lemma wrap64_eq_self (x : Int) (h1 : -(2 ^ 63) ≤ x) (h2 : x < 2 ^ 63) :
    wrap64 x = x := by
  unfold wrap64
  rw [Int.emod_eq_of_lt (by omega) (by omega)]
  omega

/-- helper: the amount of a successfully converted record, as the
fee-or-base selection followed by the wrapping sign flip. -/
lemma ConvertToSimpleRecord_amount_eq (a : ActualETCRecord)
    (r : ETCRecord) (h : ConvertToSimpleRecord a = some r) :
    r.Amount =
      if (if a.ETCAmount ≠ 0 then a.ETCAmount else a.NormalAmount) < 0 then
        wrap64 (-(if a.ETCAmount ≠ 0 then a.ETCAmount else a.NormalAmount))
      else if a.ETCAmount ≠ 0 then a.ETCAmount else a.NormalAmount := by
  unfold ConvertToSimpleRecord at h
  cases hd : (match parseDate a.ExitDate with
      | some d => some d
      | none => parseDate a.EntryDate) with
  | none => rw [hd] at h; exact absurd h (by simp)
  | some d =>
    rw [hd] at h
    simp only [Option.some.injEq] at h
    subst h
    by_cases h0 : a.ETCAmount = 0 <;> simp [h0]

/-- C4 counterexample: the fee cell `-9223372036854775808` parses (its
magnitude is exactly `2^63`, accepted by `Atoi`), and converting the
resulting record yields the negative amount `-2^63` — Go's `int`
negation wraps — so the amount is neither the absolute value nor
non-negative. -/
theorem ConvertToSimpleRecord_amount_counterexample :
    parseAmount "-9223372036854775808" = some (-(2 ^ 63)) ∧
    ConvertToSimpleRecord
        { ExitDate := "25/09/01", ETCAmount := -(2 ^ 63),
          CardNumber := "c1" } =
      some { Date := (2025, 9, 1), EntryIC := "", ExitIC := "", Route := "",
             VehicleType := "Class 0", Amount := -(2 ^ 63),
             CardNumber := "c1" } ∧
    (-(2 ^ 63) : Int) < 0 ∧
    (-(2 ^ 63) : Int) ≠
      abs (if (-(2 ^ 63) : Int) ≠ 0 then (-(2 ^ 63) : Int) else 0) := by
  decide

/-- C4 (amended): on successful conversion the simplified amount is the
fee amount if nonzero, else the base amount, sign-flipped by 64-bit
two's-complement negation when negative: for a selected value strictly
between `-2^63` and `2^63` this is the absolute value and is
non-negative, while at exactly `-2^63` the negation wraps and the
amount stays `-2^63`. -/
theorem ConvertToSimpleRecord_amount_wrap64 (a : ActualETCRecord)
    (r : ETCRecord) (h : ConvertToSimpleRecord a = some r) :
    (r.Amount =
      if (if a.ETCAmount ≠ 0 then a.ETCAmount else a.NormalAmount) < 0 then
        wrap64 (-(if a.ETCAmount ≠ 0 then a.ETCAmount else a.NormalAmount))
      else if a.ETCAmount ≠ 0 then a.ETCAmount else a.NormalAmount) ∧
    (-(2 ^ 63) < (if a.ETCAmount ≠ 0 then a.ETCAmount else a.NormalAmount) →
      (if a.ETCAmount ≠ 0 then a.ETCAmount else a.NormalAmount) < 2 ^ 63 →
      r.Amount =
          abs (if a.ETCAmount ≠ 0 then a.ETCAmount else a.NormalAmount) ∧
        0 ≤ r.Amount) ∧
    ((if a.ETCAmount ≠ 0 then a.ETCAmount else a.NormalAmount) = -(2 ^ 63) →
      r.Amount = -(2 ^ 63)) := by
  have hval := ConvertToSimpleRecord_amount_eq a r h
  refine ⟨hval, ?_, ?_⟩
  · intro hlo hhi
    rw [hval]
    by_cases hneg :
        (if a.ETCAmount ≠ 0 then a.ETCAmount else a.NormalAmount) < 0
    · rw [if_pos hneg, wrap64_eq_self _ (by omega) (by omega),
        abs_of_neg hneg]
      omega
    · rw [if_neg hneg, abs_of_nonneg (le_of_not_lt hneg)]
      exact ⟨rfl, le_of_not_lt hneg⟩
  · intro hmin
    rw [hval, hmin]
    decide

/-- C4 witness: a representable negative fee amount is sign-flipped to
its absolute value. -/
theorem ConvertToSimpleRecord_amount_wrap64_witness :
    (7430 : Int) = abs (if (-7430 : Int) ≠ 0 then (-7430 : Int) else 0) ∧
      (0 : Int) ≤ (7430 : Int) :=
  (ConvertToSimpleRecord_amount_wrap64
    { ExitDate := "25/09/01", ETCAmount := -7430, CardNumber := "c1" }
    { Date := (2025, 9, 1), EntryIC := "", ExitIC := "", Route := "",
      VehicleType := "Class 0", Amount := 7430, CardNumber := "c1" }
    (by decide)).2.1 (by decide) (by decide)

/-- helper: `Parse` on a nonempty row list, fully case-split on header
detection and data-row availability. -/
lemma Parse_cons (r0 : List String) (tl : List (List String)) :
    Parse (r0 :: tl) =
      if isHeaderRow r0 then
        if tl = [] then Except.error "no data records found"
        else Except.ok (tl.filterMap (rowToRecord true r0))
      else Except.ok ((r0 :: tl).filterMap (rowToRecord false r0)) := by
  unfold Parse ValidateRecordsAvailable
  by_cases hh : isHeaderRow r0 <;> simp only [hh, if_true, if_false]
  · cases tl <;> simp
  · simp

/-- C5: `Parse` fails with the empty-input message exactly on zero
rows, fails with the no-data message exactly on a single row that is
classified as a header, and succeeds on a header row followed by at
least one data row. -/
theorem Parse_structural_errors (rows : List (List String)) :
    (Parse rows = Except.error "CSV file is empty" ↔ rows = []) ∧
    (Parse rows = Except.error "no data records found" ↔
      ∃ r, rows = [r] ∧ isHeaderRow r = true) ∧
    (∀ h t, rows = h :: t → isHeaderRow h = true → t ≠ [] →
      ∃ l, Parse rows = Except.ok l) := by
  cases rows with
  | nil =>
    refine ⟨by simp [Parse], ?_, by simp⟩
    constructor
    · intro h
      exact absurd h (by simp [Parse])
    · rintro ⟨r, h, -⟩
      exact absurd h (by simp)
  | cons r0 tl =>
    rw [Parse_cons]
    by_cases hh : isHeaderRow r0 <;> simp only [hh, if_true, if_false]
    · cases tl with
      | nil =>
        refine ⟨by simp, ?_, by simp⟩
        constructor
        · intro _
          exact ⟨r0, rfl, hh⟩
        · intro _
          simp
      | cons x xs =>
        refine ⟨by simp, ?_, ?_⟩
        · constructor
          · intro h
            exact absurd h (by simp)
          · rintro ⟨r, h, -⟩
            simp at h
        · intro h t hrt _ _
          exact ⟨_, rfl⟩
    · refine ⟨by simp, ?_, ?_⟩
      · constructor
        · intro h
          exact absurd h (by simp)
        · rintro ⟨r, h, hr⟩
          obtain ⟨rfl, rfl⟩ : r0 = r ∧ tl = [] := by simpa using h
          exact absurd hr (by simp [hh])
      · intro h t hrt hhd _
        injection hrt with h1 h2
        subst h1
        exact absurd hhd (by simp [hh])

/-- C5 witness: a lone header row fails with the no-data error, and a
header row plus one data row parses successfully. -/
theorem Parse_structural_errors_witness :
    (Parse [["料金"]] = Except.error "no data records found" ↔
      ∃ r, [["料金"]] = [r] ∧ isHeaderRow r = true) ∧
    ∃ l, Parse [["料金"], ["a"]] = Except.ok l :=
  ⟨(Parse_structural_errors [["料金"]]).2.1,
    (Parse_structural_errors [["料金"], ["a"]]).2.2 ["料金"] [["a"]] rfl
      (by decide) (by decide)⟩

/-- C2: whenever data rows exist, `Parse` succeeds and returns exactly
the mapped rows; every row the mapper sends to a record appears in the
output, in particular also when `ValidateRecord` rejects that record —
per-row validation failure neither produces a parse error nor drops
the row. -/
theorem Parse_retains_invalid_records (rows : List (List String))
    (r0 : List String) (tl : List (List String)) (hrows : rows = r0 :: tl)
    (hdata : isHeaderRow r0 = true → tl ≠ []) :
    ∃ l, Parse rows = Except.ok l ∧
      l = (if isHeaderRow r0 then tl else rows).filterMap
            (rowToRecord (isHeaderRow r0) r0) ∧
      ∀ row ∈ (if isHeaderRow r0 then tl else rows),
        ∀ rec, rowToRecord (isHeaderRow r0) r0 row = some rec →
          rec ∈ l ∧
            (∀ e, ValidateRecord rec = Except.error e → rec ∈ l) := by
  subst hrows
  rw [Parse_cons]
  by_cases hh : isHeaderRow r0 <;> simp only [hh, if_true, if_false]
  · rw [if_neg (hdata hh)]
    refine ⟨_, rfl, rfl, ?_⟩
    intro row hrow rec hrec
    have hmem : rec ∈ tl.filterMap (rowToRecord true r0) :=
      List.mem_filterMap.mpr ⟨row, hrow, hrec⟩
    exact ⟨hmem, fun _ _ => hmem⟩
  · refine ⟨_, rfl, rfl, ?_⟩
    intro row hrow rec hrec
    have hmem : rec ∈ (r0 :: tl).filterMap (rowToRecord false r0) :=
      List.mem_filterMap.mpr ⟨row, hrow, hrec⟩
    exact ⟨hmem, fun _ _ => hmem⟩

/-- C2 witness: a positional row whose card-number cell is missing
(so the validator rejects the record) is still parsed and returned. -/
theorem Parse_retains_invalid_records_witness :
    ∃ l, Parse [["a", "b", "c", "d", "e", "f", "g", "1", "2", "3", "4",
        "5", "6"]] = Except.ok l ∧
      l = (if isHeaderRow ["a", "b", "c", "d", "e", "f", "g", "1", "2",
            "3", "4", "5", "6"] then []
          else [["a", "b", "c", "d", "e", "f", "g", "1", "2", "3", "4",
            "5", "6"]]).filterMap
            (rowToRecord (isHeaderRow ["a", "b", "c", "d", "e", "f", "g",
              "1", "2", "3", "4", "5", "6"])
              ["a", "b", "c", "d", "e", "f", "g", "1", "2", "3", "4",
                "5", "6"]) ∧
      ∀ row ∈ (if isHeaderRow ["a", "b", "c", "d", "e", "f", "g", "1",
            "2", "3", "4", "5", "6"] then []
          else [["a", "b", "c", "d", "e", "f", "g", "1", "2", "3", "4",
            "5", "6"]]),
        ∀ rec, rowToRecord (isHeaderRow ["a", "b", "c", "d", "e", "f",
            "g", "1", "2", "3", "4", "5", "6"])
            ["a", "b", "c", "d", "e", "f", "g", "1", "2", "3", "4", "5",
              "6"] row = some rec →
          rec ∈ l ∧
            (∀ e, ValidateRecord rec = Except.error e → rec ∈ l) :=
  Parse_retains_invalid_records _ _ _ rfl (by decide)

/-- helper: reading an index below `n` through `take n` is reading the
original list. -/
lemma getD_take_eq (l : List String) :
    ∀ (n i : Nat), i < n → (l.take n).getD i "" = l.getD i "" := by
  induction l with
  | nil => intro n i _; simp
  | cons a t ih =>
    intro n i h
    cases n with
    | zero => omega
    | succ m =>
      cases i with
      | zero => simp
      | succ j =>
        simp only [List.take_succ_cons, List.getD_cons_succ]
        exact ih m j (by omega)

/-- helper: reading at or beyond the length yields the default. -/
lemma getD_len_le (l : List String) (i : Nat) (h : l.length ≤ i) :
    l.getD i "" = "" := by
  simp [List.getD_eq_getElem?_getD, List.getElem?_eq_none h]

/-- C8: in positional mode `Parse` succeeds, dropping exactly the rows
with fewer than 13 cells and mapping all others; the mapping reads
only the first 15 cells, and the optional cells at indices 13 and 14
read as the empty string when absent. -/
theorem Parse_positional_policy (r0 : List String)
    (tl : List (List String)) (hnh : isHeaderRow r0 = false) :
    Parse (r0 :: tl) = Except.ok ((r0 :: tl).filterMap (fun r =>
        if r.length < 13 then none else some (parsePositional r))) ∧
    (∀ r : List String, parsePositional r = parsePositional (r.take 15)) ∧
    (∀ r : List String, r.length = 13 →
      (parsePositional r).CardNumber = "" ∧ (parsePositional r).Notes = "") ∧
    (∀ r : List String, r.length = 14 → (parsePositional r).Notes = "") := by
  refine ⟨?_, ?_, ?_, ?_⟩
  · rw [Parse_cons, if_neg (by simp [hnh])]
    have hfun : rowToRecord false r0 = fun r =>
        if r.length < 13 then none else some (parsePositional r) := by
      funext r
      simp [rowToRecord]
    rw [hfun]
  · intro r
    have h : ∀ i, i < 15 → (r.take 15).getD i "" = r.getD i "" :=
      fun i hi => getD_take_eq r 15 i hi
    simp only [parsePositional, getFieldSafe, ParseVehicleClass]
    rw [h 0 (by omega), h 1 (by omega), h 2 (by omega), h 3 (by omega),
      h 4 (by omega), h 5 (by omega), h 6 (by omega), h 7 (by omega),
      h 8 (by omega), h 9 (by omega), h 10 (by omega), h 11 (by omega),
      h 12 (by omega), h 13 (by omega), h 14 (by omega)]
  · intro r hr
    simp only [parsePositional, getFieldSafe]
    exact ⟨getD_len_le r 13 (by omega), getD_len_le r 14 (by omega)⟩
  · intro r hr
    simp only [parsePositional, getFieldSafe]
    exact getD_len_le r 14 (by omega)

/-- C8 witness: a 12-cell row is dropped while a 13-cell row is kept,
and the absent optional cells of the 13-cell row read as empty. -/
theorem Parse_positional_policy_witness :
    Parse [["a", "b", "c", "d", "e", "f", "g", "1", "2", "3", "4", "5"],
        ["a", "b", "c", "d", "e", "f", "g", "1", "2", "3", "4", "5", "6"]] =
      Except.ok ([["a", "b", "c", "d", "e", "f", "g", "1", "2", "3", "4",
          "5"],
        ["a", "b", "c", "d", "e", "f", "g", "1", "2", "3", "4", "5",
          "6"]].filterMap (fun r =>
          if r.length < 13 then none else some (parsePositional r))) ∧
    (parsePositional ["a", "b", "c", "d", "e", "f", "g", "1", "2", "3",
        "4", "5", "6"]).CardNumber = "" ∧
    (parsePositional ["a", "b", "c", "d", "e", "f", "g", "1", "2", "3",
        "4", "5", "6"]).Notes = "" :=
  ⟨(Parse_positional_policy _ _ (by decide)).1,
    (Parse_positional_policy
        ["a", "b", "c", "d", "e", "f", "g", "1", "2", "3", "4", "5"] []
        (by decide)).2.2.1 _ (by decide)⟩

/-- C10: in header-based mapping the post-payment column overwrites
the fee amount exactly when its cell is nonempty and parses to a
nonzero integer; an empty, unparsable or zero cell leaves the fee
amount at the value read from the toll-fee column. -/
theorem parseWithHeaders_post_payment (record firstRow : List String) :
    (∀ v : Int,
      getFieldByHeader record firstRow ["後納料金", "後払料金"] ≠ "" →
      parseAmount
          (getFieldByHeader record firstRow ["後納料金", "後払料金"]) =
        some v →
      v ≠ 0 →
      (parseWithHeaders record firstRow).ETCAmount = v) ∧
    (getFieldByHeader record firstRow ["後納料金", "後払料金"] = "" ∨
      parseAmount
          (getFieldByHeader record firstRow ["後納料金", "後払料金"]) =
        none ∨
      parseAmount
          (getFieldByHeader record firstRow ["後納料金", "後払料金"]) =
        some 0 →
      (parseWithHeaders record firstRow).ETCAmount =
        tollFeeAmount record firstRow) := by
  constructor
  · intro v hne hpa hv
    unfold parseWithHeaders
    rw [if_pos hne, hpa]
    simp [hv]
  · intro hcase
    unfold parseWithHeaders
    rcases hcase with hempty | hnone | hzero
    · rw [if_neg (by simp [hempty])]
    · by_cases hne : getFieldByHeader record firstRow ["後納料金", "後払料金"] = ""
      · rw [if_neg (by simp [hne])]
      · rw [if_pos hne, hnone]
    · by_cases hne : getFieldByHeader record firstRow ["後納料金", "後払料金"] = ""
      · rw [if_neg (by simp [hne])]
      · rw [if_pos hne, hzero]
        simp

/-- C10 witness: a nonzero post-payment cell overwrites the toll-fee
amount, and with no post-payment column the toll-fee amount stands. -/
theorem parseWithHeaders_post_payment_witness :
    (parseWithHeaders ["100", "250"] ["通行料金", "後納料金"]).ETCAmount =
        250 ∧
      (parseWithHeaders ["100"] ["通行料金"]).ETCAmount =
        tollFeeAmount ["100"] ["通行料金"] :=
  ⟨(parseWithHeaders_post_payment ["100", "250"]
        ["通行料金", "後納料金"]).1 250 (by decide) (by decide) (by decide),
    (parseWithHeaders_post_payment ["100"] ["通行料金"]).2
      (Or.inl (by decide))⟩

/-- helper: bumping a key keeps it bound (with the incremented count). -/
lemma lookup_bumpKey (k : String) :
    ∀ (m : List (String × Nat)) (v : Nat), m.lookup k = some v →
      (bumpKey m k).lookup k = some (v + 1) := by
  intro m
  induction m with
  | nil => intro v hv; simp [List.lookup] at hv
  | cons p t ih =>
    intro v hv
    obtain ⟨a, b⟩ := p
    by_cases hak : a = k
    · subst hak
      simp [List.lookup, bumpKey] at hv ⊢
      omega
    · have hka : (k == a) = false := by
        simp [hak]
        exact fun h => hak h.symm
      simp only [List.lookup, hka, cond_false] at hv
      simp only [bumpKey, if_neg hak, List.lookup, hka, cond_false]
      exact ih v hv

/-- helper: once a key is in the map, every further record with that
key increments the duplicate count. -/
lemma dupPass_all_same (k : String) :
    ∀ (l : List ActualETCRecord) (m : List (String × Nat)) (c v : Nat),
      (∀ r ∈ l, validateKey r = k) → m.lookup k = some v →
      dupPass l m c = c + l.length := by
  intro l
  induction l with
  | nil => intro m c v _ _; simp [dupPass]
  | cons r t ih =>
    intro m c v hall hv
    have hk : validateKey r = k := hall r (List.mem_cons_self r t)
    simp only [dupPass, hk, hv]
    rw [ih (bumpKey m k) (c + 1) (v + 1)
      (fun x hx => hall x (List.mem_cons_of_mem r hx))
      (lookup_bumpKey k m v hv)]
    simp only [List.length_cons]
    omega

/-- helper: records equal on entry/exit date and time and fee amount
have the same validate-path duplicate key. -/
lemma validateKey_congr (r r0 : ActualETCRecord)
    (h : r.EntryDate = r0.EntryDate ∧ r.EntryTime = r0.EntryTime ∧
      r.ExitDate = r0.ExitDate ∧ r.ExitTime = r0.ExitTime ∧
      r.ETCAmount = r0.ETCAmount) :
    validateKey r = validateKey r0 := by
  unfold validateKey
  rw [h.1, h.2.1, h.2.2.1, h.2.2.2.1, h.2.2.2.2]

/-- C7: over records pairwise identical in entry/exit dates, times and
fee amount, the validate-only path counts every occurrence beyond the
first as a duplicate: `duplicateCount = n - 1` and `totalRecords = n`. -/
theorem ValidateCSVData_duplicate_count (r0 : ActualETCRecord)
    (rest : List ActualETCRecord)
    (hsame : ∀ r ∈ rest,
      r.EntryDate = r0.EntryDate ∧ r.EntryTime = r0.EntryTime ∧
      r.ExitDate = r0.ExitDate ∧ r.ExitTime = r0.ExitTime ∧
      r.ETCAmount = r0.ETCAmount) :
    (ValidateCSVData (r0 :: rest)).DuplicateCount =
        (r0 :: rest).length - 1 ∧
      (ValidateCSVData (r0 :: rest)).TotalRecords = (r0 :: rest).length := by
  refine ⟨?_, by simp [ValidateCSVData]⟩
  show dupPass (r0 :: rest) [] 0 = (r0 :: rest).length - 1
  simp only [dupPass, List.lookup]
  rw [dupPass_all_same (validateKey r0) rest [(validateKey r0, 1)] 0 1
    (fun r hr => validateKey_congr r r0 (hsame r hr)) (by simp)]
  simp

/-- C7 witness: three identical records give `duplicateCount = 2` and
`totalRecords = 3`. -/
theorem ValidateCSVData_duplicate_count_witness :
    (ValidateCSVData
          [{ EntryDate := "25/09/01", EntryTime := "08:00",
             ExitDate := "25/09/01", ExitTime := "09:00",
             ETCAmount := 1000, CardNumber := "c1" },
           { EntryDate := "25/09/01", EntryTime := "08:00",
             ExitDate := "25/09/01", ExitTime := "09:00",
             ETCAmount := 1000, CardNumber := "c1" },
           { EntryDate := "25/09/01", EntryTime := "08:00",
             ExitDate := "25/09/01", ExitTime := "09:00",
             ETCAmount := 1000, CardNumber := "c1" }]).DuplicateCount =
        3 - 1 ∧
      (ValidateCSVData
          [{ EntryDate := "25/09/01", EntryTime := "08:00",
             ExitDate := "25/09/01", ExitTime := "09:00",
             ETCAmount := 1000, CardNumber := "c1" },
           { EntryDate := "25/09/01", EntryTime := "08:00",
             ExitDate := "25/09/01", ExitTime := "09:00",
             ETCAmount := 1000, CardNumber := "c1" },
           { EntryDate := "25/09/01", EntryTime := "08:00",
             ExitDate := "25/09/01", ExitTime := "09:00",
             ETCAmount := 1000, CardNumber := "c1" }]).TotalRecords = 3 :=
  ValidateCSVData_duplicate_count _ _ (by decide)

/-- helper: records equal on the six key fields share the
`processRecords` duplicate key. -/
lemma processKey_congr (r r0 : ActualETCRecord)
    (h : r.EntryDate = r0.EntryDate ∧ r.EntryTime = r0.EntryTime ∧
      r.ExitDate = r0.ExitDate ∧ r.ExitTime = r0.ExitTime ∧
      r.ETCAmount = r0.ETCAmount ∧ r.CardNumber = r0.CardNumber) :
    processKey r = processKey r0 := by
  unfold processKey
  rw [validateKey_congr r r0
    ⟨h.1, h.2.1, h.2.2.1, h.2.2.2.1, h.2.2.2.2.1⟩, h.2.2.2.2.2]

/-- helper: with skip-duplicates on, a record whose key was already
processed only increments the skipped counter. -/
lemma procStep_skip (db : Option StoreFn) (acct : String) (i : Nat)
    (r : ActualETCRecord) (st : ProcState)
    (hmem : st.processedKeys.contains (processKey r) = true) :
    procStep db acct true i r st =
      { st with stats :=
          { st.stats with SkippedRecords := st.stats.SkippedRecords + 1 } } := by
  unfold procStep
  rw [if_pos
    (show (true && st.processedKeys.contains (processKey r)) = true by
      simpa using hmem)]

/-- helper: an uncancelled loop over records whose keys are all already
processed adds their number to the skipped counter and changes nothing
else. -/
lemma procLoop_all_skipped (db : Option StoreFn) (acct : String)
    (total : Nat) (k : String) :
    ∀ (l : List ActualETCRecord) (i : Nat) (st : ProcState),
      (∀ r ∈ l, processKey r = k) → st.processedKeys.contains k = true →
      procLoop (fun _ => false) db acct true total i l st =
        { st with stats :=
            { st.stats with SkippedRecords :=
                st.stats.SkippedRecords + l.length } } := by
  intro l
  induction l with
  | nil =>
    intro i st _ _
    simp [procLoop]
  | cons r t ih =>
    intro i st hall hmem
    have hk : processKey r = k := hall r (List.mem_cons_self r t)
    have hstep := procStep_skip db acct i r st (by rw [hk]; exact hmem)
    simp only [procLoop, Bool.false_eq_true, if_false, hstep]
    rw [ih (i + 1)
      { st with stats :=
          { st.stats with SkippedRecords := st.stats.SkippedRecords + 1 } }
      (fun x hx => hall x (List.mem_cons_of_mem r hx)) hmem]
    simp only [ProcState.mk.injEq, ProcessingStats.mk.injEq, List.length_cons,
      and_true, true_and]
    push_cast
    ring

/-- C6: with skip-duplicates on, an uncancelled context, a first record
that converts and stores successfully, and every later record equal to
it on the six key fields, `processRecords` saves exactly one record
and skips all the others: total `n`, saved 1, skipped `n - 1`,
errored 0. -/
theorem processRecords_skip_duplicates (r0 : ActualETCRecord)
    (rest : List ActualETCRecord) (acct : String) (save : StoreFn)
    (sr : ETCRecord)
    (hconv : ConvertToSimpleRecord r0 = some sr)
    (hsave : save 0 acct sr = Except.ok ())
    (hdup : ∀ r ∈ rest,
      r.EntryDate = r0.EntryDate ∧ r.EntryTime = r0.EntryTime ∧
      r.ExitDate = r0.ExitDate ∧ r.ExitTime = r0.ExitTime ∧
      r.ETCAmount = r0.ETCAmount ∧ r.CardNumber = r0.CardNumber) :
    (processRecords (fun _ => false) (r0 :: rest) acct true
        (some save)).stats =
      { TotalRecords := (rest.length : Int) + 1
        SavedRecords := 1
        SkippedRecords := (rest.length : Int)
        ErrorRecords := 0 } := by
  unfold processRecords
  simp only [procLoop, Bool.false_eq_true, if_false]
  have hstep : procStep (some save) acct true 0 r0
      { stats :=
          { TotalRecords := ((r0 :: rest).length : Int)
            SavedRecords := 0
            SkippedRecords := 0
            ErrorRecords := 0 }
        errors := []
        processedKeys := []
        convCalls := []
        storeCalls := [] } =
      { stats :=
          { TotalRecords := ((r0 :: rest).length : Int)
            SavedRecords := 1
            SkippedRecords := 0
            ErrorRecords := 0 }
        errors := []
        processedKeys := [processKey r0]
        convCalls := [0]
        storeCalls := [0] } := by
    unfold procStep
    simp [hconv, hsave]
  rw [hstep, procLoop_all_skipped (some save) acct (r0 :: rest).length
    (processKey r0) rest 1 _
    (fun r hr => processKey_congr r r0 (hdup r hr)) (by simp)]
  simp only [ProcState.mk.injEq, ProcessingStats.mk.injEq, List.length_cons]
  push_cast
  ring_nf
  simp

/-- C6 witness: five identical records yield saved 1, skipped 4,
total 5, errored 0. -/
theorem processRecords_skip_duplicates_witness :
    (processRecords (fun _ => false)
        (List.replicate 5
          { EntryDate := "25/09/01", EntryTime := "08:00",
            ExitDate := "25/09/01", ExitTime := "09:00",
            ETCAmount := 1000, CardNumber := "c1" })
        "acct" true (some (fun _ _ _ => Except.ok ()))).stats =
      { TotalRecords := (4 : Int) + 1
        SavedRecords := 1
        SkippedRecords := (4 : Int)
        ErrorRecords := 0 } :=
  processRecords_skip_duplicates
    { EntryDate := "25/09/01", EntryTime := "08:00",
      ExitDate := "25/09/01", ExitTime := "09:00",
      ETCAmount := 1000, CardNumber := "c1" }
    (List.replicate 4
      { EntryDate := "25/09/01", EntryTime := "08:00",
        ExitDate := "25/09/01", ExitTime := "09:00",
        ETCAmount := 1000, CardNumber := "c1" })
    "acct" (fun _ _ _ => Except.ok ())
    { Date := (2025, 9, 1), EntryIC := "", ExitIC := "", Route := "",
      VehicleType := "Class 0", Amount := 1000, CardNumber := "c1" }
    (by decide) rfl (by decide)

/-- helper: one loop step appends at most its own index to the
conversion and store call traces. -/
lemma procStep_calls (db : Option StoreFn) (acct : String) (skip : Bool)
    (i : Nat) (r : ActualETCRecord) (st : ProcState) :
    ((procStep db acct skip i r st).convCalls = st.convCalls ∨
      (procStep db acct skip i r st).convCalls = st.convCalls ++ [i]) ∧
    ((procStep db acct skip i r st).storeCalls = st.storeCalls ∨
      (procStep db acct skip i r st).storeCalls = st.storeCalls ++ [i]) := by
  simp only [procStep]
  by_cases h : (skip && st.processedKeys.contains (processKey r)) = true
  · rw [if_pos h]
    exact ⟨Or.inl rfl, Or.inl rfl⟩
  · rw [if_neg h]
    cases hconv : ConvertToSimpleRecord r with
    | none => exact ⟨Or.inr rfl, Or.inl rfl⟩
    | some sr =>
      cases db with
      | none => exact ⟨Or.inr rfl, Or.inl rfl⟩
      | some save =>
        dsimp only
        cases hsave : save i acct sr with
        | error e => exact ⟨Or.inr rfl, Or.inr rfl⟩
        | ok u => exact ⟨Or.inr rfl, Or.inr rfl⟩

/-- helper: an uncancelled loop starting at index `i` over `l` only
adds indices from `[i, i + length l)` to the call traces. -/
lemma procLoop_calls_range (db : Option StoreFn) (acct : String)
    (skip : Bool) (total : Nat) :
    ∀ (l : List ActualETCRecord) (i : Nat) (st : ProcState),
      (∀ j ∈ (procLoop (fun _ => false) db acct skip total i l st).convCalls,
        j ∈ st.convCalls ∨ (i ≤ j ∧ j < i + l.length)) ∧
      (∀ j ∈ (procLoop (fun _ => false) db acct skip total i l st).storeCalls,
        j ∈ st.storeCalls ∨ (i ≤ j ∧ j < i + l.length)) := by
  intro l
  induction l with
  | nil =>
    intro i st
    exact ⟨fun j hj => Or.inl hj, fun j hj => Or.inl hj⟩
  | cons r t ih =>
    intro i st
    simp only [procLoop, Bool.false_eq_true, if_false]
    constructor
    · intro j hj
      rcases (ih (i + 1) (procStep db acct skip i r st)).1 j hj with hin | hrange
      · rcases (procStep_calls db acct skip i r st).1 with he | he
        · rw [he] at hin
          exact Or.inl hin
        · rw [he] at hin
          rcases List.mem_append.mp hin with h | h
          · exact Or.inl h
          · simp only [List.mem_singleton] at h
            subst h
            right
            simp only [List.length_cons]
            omega
      · right
        simp only [List.length_cons]
        omega
    · intro j hj
      rcases (ih (i + 1) (procStep db acct skip i r st)).2 j hj with hin | hrange
      · rcases (procStep_calls db acct skip i r st).2 with he | he
        · rw [he] at hin
          exact Or.inl hin
        · rw [he] at hin
          rcases List.mem_append.mp hin with h | h
          · exact Or.inl h
          · simp only [List.mem_singleton] at h
            subst h
            right
            simp only [List.length_cons]
            omega
      · right
        simp only [List.length_cons]
        omega

/-- helper: the loop body never reads or writes `TotalRecords`. -/
lemma procStep_total (db : Option StoreFn) (acct : String) (skip : Bool)
    (i : Nat) (r : ActualETCRecord) (st : ProcState) (x : Int) :
    procStep db acct skip i r
        { st with stats := { st.stats with TotalRecords := x } } =
      { procStep db acct skip i r st with stats :=
          { (procStep db acct skip i r st).stats with TotalRecords := x } } := by
  simp only [procStep]
  by_cases h : (skip && st.processedKeys.contains (processKey r)) = true
  · rw [if_pos h, if_pos h]
  · rw [if_neg h, if_neg h]
    cases hconv : ConvertToSimpleRecord r with
    | none => rfl
    | some sr =>
      cases db with
      | none => rfl
      | some save =>
        dsimp only
        cases hsave : save i acct sr with
        | error e => rfl
        | ok u => rfl

/-- helper: with no cancellation the `total` parameter is never used
and `TotalRecords` passes through the loop untouched. -/
lemma procLoop_total (db : Option StoreFn) (acct : String) (skip : Bool) :
    ∀ (l : List ActualETCRecord) (t1 t2 : Nat) (i : Nat) (st : ProcState)
      (x : Int),
      procLoop (fun _ => false) db acct skip t1 i l
          { st with stats := { st.stats with TotalRecords := x } } =
        { procLoop (fun _ => false) db acct skip t2 i l st with stats :=
            { (procLoop (fun _ => false) db acct skip t2 i l st).stats with
              TotalRecords := x } } := by
  intro l
  induction l with
  | nil => intro t1 t2 i st x; simp [procLoop]
  | cons r t ih =>
    intro t1 t2 i st x
    simp only [procLoop, Bool.false_eq_true, if_false]
    rw [procStep_total db acct skip i r st x]
    exact ih t1 t2 (i + 1) (procStep db acct skip i r st) x

/-- helper: a loop that is first cancelled at index `c` behaves as the
uncancelled loop over the records before `c`, with one cancellation
diagnostic appended and `ErrorRecords` overwritten to `total - c`. -/
lemma procLoop_cancel (cancelled : Nat → Bool) (db : Option StoreFn)
    (acct : String) (skip : Bool) (total : Nat) (c : Nat)
    (hc : cancelled c = true) :
    ∀ (l : List ActualETCRecord) (i : Nat) (st : ProcState),
      i ≤ c → c < i + l.length →
      (∀ j, i ≤ j → j < c → cancelled j = false) →
      procLoop cancelled db acct skip total i l st =
        { procLoop (fun _ => false) db acct skip total i (l.take (c - i)) st
            with
          errors := (procLoop (fun _ => false) db acct skip total i
              (l.take (c - i)) st).errors ++
            ["Processing cancelled at record " ++ toString c]
          stats := { (procLoop (fun _ => false) db acct skip total i
              (l.take (c - i)) st).stats with
            ErrorRecords := (total : Int) - (c : Int) } } := by
  intro l
  induction l with
  | nil =>
    intro i st h1 h2 _
    simp only [List.length_nil, Nat.add_zero] at h2
    omega
  | cons r t ih =>
    intro i st hic hlt hbef
    by_cases hieq : i = c
    · subst hieq
      simp only [procLoop, hc, if_true, Nat.sub_self, List.take_zero]
    · have hlt2 : i < c := Nat.lt_of_le_of_ne hic hieq
      have hci : cancelled i = false := hbef i le_rfl hlt2
      have hstep : c - i = (c - (i + 1)) + 1 := by omega
      rw [hstep, List.take_succ_cons]
      simp only [procLoop, hci, Bool.false_eq_true, if_false]
      exact ih (i + 1) (procStep db acct skip i r st) (by omega)
        (by simp only [List.length_cons] at hlt; omega)
        (fun j hj1 hj2 => hbef j (by omega) hj2)

/-- C9: when the context is first cancelled at record index `i`, the
orchestrator attempts no conversion or store from index `i` on, appends
exactly one cancellation diagnostic after those of the first `i`
records, and sets the errored count to `totalRecords - i`; cancellation
before any record gives `errored = totalRecords` and nothing saved. -/
theorem processRecords_cancellation (records : List ActualETCRecord)
    (acct : String) (skip : Bool) (db : Option StoreFn)
    (cancelled : Nat → Bool) (i : Nat)
    (hi : i < records.length)
    (hbefore : ∀ j, j < i → cancelled j = false)
    (hcancel : cancelled i = true) :
    (∀ j ∈ (processRecords cancelled records acct skip db).convCalls,
      j < i) ∧
    (∀ j ∈ (processRecords cancelled records acct skip db).storeCalls,
      j < i) ∧
    (processRecords cancelled records acct skip db).errors =
      (processRecords (fun _ => false) (records.take i) acct skip
          db).errors ++
        ["Processing cancelled at record " ++ toString i] ∧
    (processRecords cancelled records acct skip db).stats.ErrorRecords =
      (records.length : Int) - (i : Int) ∧
    (i = 0 →
      (processRecords cancelled records acct skip db).stats.SavedRecords =
          0 ∧
        (processRecords cancelled records acct skip db).stats.ErrorRecords =
          (records.length : Int)) := by
  have hlen : (records.take i).length = i := by
    rw [List.length_take]
    omega
  have hmain := procLoop_cancel cancelled db acct skip records.length i
    hcancel records 0
    { stats :=
        { TotalRecords := (records.length : Int)
          SavedRecords := 0
          SkippedRecords := 0
          ErrorRecords := 0 }
      errors := []
      processedKeys := []
      convCalls := []
      storeCalls := [] }
    (Nat.zero_le i) (by simpa using hi) (fun j _ hj => hbefore j hj)
  rw [Nat.sub_zero] at hmain
  have hmid :
      procLoop (fun _ => false) db acct skip records.length 0
          (records.take i)
          { stats :=
              { TotalRecords := (records.length : Int)
                SavedRecords := 0
                SkippedRecords := 0
                ErrorRecords := 0 }
            errors := []
            processedKeys := []
            convCalls := []
            storeCalls := [] } =
        { procLoop (fun _ => false) db acct skip (records.take i).length 0
            (records.take i)
            { stats :=
                { TotalRecords := ((records.take i).length : Int)
                  SavedRecords := 0
                  SkippedRecords := 0
                  ErrorRecords := 0 }
              errors := []
              processedKeys := []
              convCalls := []
              storeCalls := [] } with
          stats :=
            { (procLoop (fun _ => false) db acct skip
                (records.take i).length 0 (records.take i)
                { stats :=
                    { TotalRecords := ((records.take i).length : Int)
                      SavedRecords := 0
                      SkippedRecords := 0
                      ErrorRecords := 0 }
                  errors := []
                  processedKeys := []
                  convCalls := []
                  storeCalls := [] }).stats with
              TotalRecords := (records.length : Int) } } :=
    procLoop_total db acct skip (records.take i) records.length
      (records.take i).length 0
      { stats :=
          { TotalRecords := ((records.take i).length : Int)
            SavedRecords := 0
            SkippedRecords := 0
            ErrorRecords := 0 }
        errors := []
        processedKeys := []
        convCalls := []
        storeCalls := [] }
      (records.length : Int)
  unfold processRecords
  rw [hmain, hmid]
  dsimp only
  refine ⟨?_, ?_, rfl, rfl, ?_⟩
  · intro j hj
    rcases (procLoop_calls_range db acct skip (records.take i).length
        (records.take i) 0 _).1 j hj with hin | hrange
    · simp at hin
    · omega
  · intro j hj
    rcases (procLoop_calls_range db acct skip (records.take i).length
        (records.take i) 0 _).2 j hj with hin | hrange
    · simp at hin
    · omega
  · intro h0
    subst h0
    refine ⟨?_, ?_⟩ <;> simp [procLoop]

/-- C9 witness: cancellation before the first record of a one-record
batch attempts nothing, emits the single cancellation diagnostic and
marks the whole batch errored. -/
theorem processRecords_cancellation_witness :
    (∀ j ∈ (processRecords (fun _ => true)
        [{ EntryDate := "25/09/01", CardNumber := "c1" }] "a" true
        (some (fun _ _ _ => Except.ok ()))).convCalls, j < 0) ∧
    (∀ j ∈ (processRecords (fun _ => true)
        [{ EntryDate := "25/09/01", CardNumber := "c1" }] "a" true
        (some (fun _ _ _ => Except.ok ()))).storeCalls, j < 0) ∧
    (processRecords (fun _ => true)
        [{ EntryDate := "25/09/01", CardNumber := "c1" }] "a" true
        (some (fun _ _ _ => Except.ok ()))).errors =
      (processRecords (fun _ => false)
          (List.take 0 [{ EntryDate := "25/09/01", CardNumber := "c1" }])
          "a" true (some (fun _ _ _ => Except.ok ()))).errors ++
        ["Processing cancelled at record " ++ toString 0] ∧
    (processRecords (fun _ => true)
        [{ EntryDate := "25/09/01", CardNumber := "c1" }] "a" true
        (some (fun _ _ _ => Except.ok ()))).stats.ErrorRecords =
      (1 : Int) - ((0 : Nat) : Int) ∧
    ((0 : Nat) = 0 →
      (processRecords (fun _ => true)
          [{ EntryDate := "25/09/01", CardNumber := "c1" }] "a" true
          (some (fun _ _ _ => Except.ok ()))).stats.SavedRecords = 0 ∧
        (processRecords (fun _ => true)
            [{ EntryDate := "25/09/01", CardNumber := "c1" }] "a" true
            (some (fun _ _ _ => Except.ok ()))).stats.ErrorRecords =
          (1 : Int)) :=
  processRecords_cancellation
    [{ EntryDate := "25/09/01", CardNumber := "c1" }] "a" true
    (some (fun _ _ _ => Except.ok ())) (fun _ => true) 0 (by decide)
    (fun j hj => absurd hj (Nat.not_lt_zero j)) rfl

end Etc
